import Mathlib

/-!
Verification of `koishi-plugin-w-subscribe` (`src/index.ts`).

The plugin is shallowly embedded below:
* database tables become Lean lists (`List Subscription`,
  `List SubscribedMessage`), `database.get` with a query becomes
  `List.filter`, `database.create` appends a row, `database.set` maps an
  update over matching rows, `database.remove` filters matching rows out
  and reports how many rows matched;
* the koishi `Session` is reduced to the fields the plugin reads
  (`uid`, `platform`, `guildId`, `gid`, `content`, `timestamp`);
* `async` code is sequentialized (every awaited store call is a pure
  state transformation);
* a JavaScript exception becomes an `Except` error value; reading a
  property of `undefined` (a `TypeError`) is the distinguished error
  `SubError.jsTypeError`;
* JS truthiness of an optional string (`undefined`/`""` are falsy) is
  the function `jsTruthy`.
-/

namespace WSubscribe

/-- Opaque structured config values (the `json` column of the
`w-subscribe-subscription` table). -/
inductive ConfigVal
  | null
  | str (s : String)
  | num (n : Int)
  deriving DecidableEq, Repr

/-- `Subscription` row (`w-subscribe-subscription` table, `index.ts` lines
36-42 and 67-75). -/
structure Subscription where
  id : Nat
  name : String
  uid : String
  kind : String
  config : ConfigVal
  deriving DecidableEq, Repr

/-- `SubscribedMessage` row (`w-subscribe-message` table, `index.ts` lines
14-23 and 77-88). -/
structure SubscribedMessage where
  id : Nat
  subscriber : String
  kind : String
  sender : String
  guild : String
  content : String
  timestamp : Nat
  hasRead : Bool
  deriving DecidableEq, Repr

/-- `Subscriber` (`index.ts` lines 10-12). -/
structure Subscriber where
  uid : String
  deriving DecidableEq, Repr

/-- The fields of a koishi `Session` that the plugin reads. -/
structure MSession where
  uid : String
  platform : String
  guildId : Option String
  gid : String
  content : String
  timestamp : Nat

/-- A registered `SubscriptionRule` (`index.ts` lines 29-34): `kind` tag,
`filter` predicate, `render` function and config `schema`.  The schema is
modelled as a partial validation function (`none` = schema error). -/
structure SubscriptionRule where
  kind : String
  filter : MSession → ConfigVal → Subscriber → Bool
  render : MSession → SubscribedMessage → String
  schema : ConfigVal → Option ConfigVal

/-- `withKind` (`index.ts` line 55). -/
def withKind (kind : String) (r : SubscriptionRule) : Bool :=
  r.kind == kind

/-- `isKind` (`index.ts` line 62). -/
def isKind (rules : List SubscriptionRule) (str : String) : Bool :=
  rules.any (withKind str)

/-- JS truthiness of a `string | undefined` value: `undefined` and the
empty string are falsy. -/
def jsTruthy : Option String → Bool
  | none => false
  | some s => s ≠ ""

/-- The user-facing error taxonomy (`SessionError`s thrown by the plugin),
plus `jsTypeError` for a JavaScript `TypeError` (property access on
`undefined`) and `schemaError` for a failed schema validation. -/
inductive SubError
  | invalidLabel
  | notFound
  | notOwner
  | reserved
  | duplicateName
  | noChange
  | schemaError
  | jsTypeError
  deriving DecidableEq, Repr

/-! ### Label resolution (`getSubscriptionQuery` / `getSubscription`) -/

/-- `label[0] === '#'` as a match on the character list: `some rest` when
the label starts with `'#'` (and `rest` is `label.slice(1)`). -/
def hashRest (label : String) : Option (List Char) :=
  match label.data with
  | '#' :: rest => some rest
  | _ => none

/-- Decimal digit string to its value. -/
def digitsToNat (cs : List Char) : Nat :=
  cs.foldl (fun n c => n * 10 + (c.toNat - 48)) 0

/-- The `WhiteSpace` and `LineTerminator` characters of ECMA-262 (the set
trimmed by `Number()` on strings): tab, LF, VT, FF, CR, space, NBSP,
Ogham space, the U+2000-200A spaces, LS, PS, NNBSP, MMSP, ideographic
space, and the BOM. -/
def isJsWhitespace (c : Char) : Bool :=
  let n := c.toNat
  n == 0x20 || (0x9 ≤ n && n ≤ 0xD) || n == 0xA0 || n == 0x1680 ||
  (0x2000 ≤ n && n ≤ 0x200A) || n == 0x2028 || n == 0x2029 ||
  n == 0x202F || n == 0x205F || n == 0x3000 || n == 0xFEFF

/-- Strip leading and trailing JS whitespace. -/
def trimWs (cs : List Char) : List Char :=
  ((cs.dropWhile isJsWhitespace).reverse.dropWhile isJsWhitespace).reverse

/-- The value of a successful JS `Number()` conversion, kept as an exact
mathematical value: an integer, a finite non-integer, or an infinity.
IEEE-754 rounding to a double is not modelled; on integer values of
magnitude at most `2 ^ 53` — where every store id lives — `Number()` is
exact, so the id-lookup claims below are stated for that range. -/
inductive JsNum
  | int (n : Int)
  | nonInt
  | inf (neg : Bool)
  deriving DecidableEq, Repr

/-- Whether a JS numeric value equals a stored (integer) id: a finite
non-integer or an infinity equals no id. -/
def JsNum.eqInt : JsNum → Int → Bool
  | .int n, m => n == m
  | _, _ => false

/-- Hexadecimal digit value. -/
def hexDigitVal (c : Char) : Option Nat :=
  let n := c.toNat
  if 48 ≤ n && n ≤ 57 then some (n - 48)
  else if 97 ≤ n && n ≤ 102 then some (n - 87)
  else if 65 ≤ n && n ≤ 70 then some (n - 55)
  else none

/-- Octal digit value. -/
def octDigitVal (c : Char) : Option Nat :=
  let n := c.toNat
  if 48 ≤ n && n ≤ 55 then some (n - 48) else none

/-- Binary digit value. -/
def binDigitVal (c : Char) : Option Nat :=
  if c == '0' then some 0 else if c == '1' then some 1 else none

/-- Value of a radix-`base` digit string; `none` on a bad digit. -/
def radixDigitsVal (base : Nat) (digVal : Char → Option Nat)
    (cs : List Char) : Option Nat :=
  cs.foldl (fun acc c => acc.bind fun n => (digVal c).map fun d => n * base + d)
    (some 0)

/-- A `0x`/`0o`/`0b` integer literal body: nonempty digits in the radix
(always an integer value; these forms admit no sign in JS). -/
def parseRadix (base : Nat) (digVal : Char → Option Nat)
    (cs : List Char) : Option JsNum :=
  if cs.isEmpty then none
  else (radixDigitsVal base digVal cs).map fun n => .int (n : Int)

/-- The optional exponent tail of a decimal literal: empty, or
`e`/`E` followed by an optionally signed nonempty digit string, consuming
the whole remainder. -/
def parseExpPart : List Char → Option Int
  | [] => some 0
  | c :: rest =>
    if c == 'e' || c == 'E' then
      match rest with
      | '+' :: ds =>
        if !ds.isEmpty && ds.all (·.isDigit)
        then some (digitsToNat ds : Int) else none
      | '-' :: ds =>
        if !ds.isEmpty && ds.all (·.isDigit)
        then some (-(digitsToNat ds : Int)) else none
      | ds =>
        if !ds.isEmpty && ds.all (·.isDigit)
        then some (digitsToNat ds : Int) else none
    else none

/-- Exact value of the decimal literal `±(sig scaled by 10 ^ (e -
fracLen))` where `sig` is the combined integer-and-fraction digit value:
an integer when the scale is non-negative or the fraction divides out
(`"12.0"`, `"1e1"`), a finite non-integer otherwise (`"1.5"`). -/
def mkDec (neg : Bool) (sig : Nat) (fracLen : Nat) (e : Int) : JsNum :=
  let k : Int := e - fracLen
  if 0 ≤ k then
    let v : Int := (sig : Int) * (10 : Int) ^ k.toNat
    .int (if neg then -v else v)
  else
    let d := (10 : Nat) ^ (-k).toNat
    if sig % d == 0 then
      let v : Int := ((sig / d : Nat) : Int)
      .int (if neg then -v else v)
    else .nonInt

/-- An unsigned `StrDecimalLiteral` without the `Infinity` form:
`digits [. digits?] [exp]` or `. digits [exp]`, consuming the whole
remainder. -/
def parseDecLit (neg : Bool) (cs : List Char) : Option JsNum :=
  let intPart := cs.takeWhile (·.isDigit)
  let rest1 := cs.dropWhile (·.isDigit)
  match rest1 with
  | [] =>
    if intPart.isEmpty then none
    else some (mkDec neg (digitsToNat intPart) 0 0)
  | '.' :: rest2 =>
    let fracPart := rest2.takeWhile (·.isDigit)
    let rest3 := rest2.dropWhile (·.isDigit)
    if intPart.isEmpty && fracPart.isEmpty then none
    else
      match parseExpPart rest3 with
      | none => none
      | some e =>
        some (mkDec neg (digitsToNat (intPart ++ fracPart)) fracPart.length e)
  | _ =>
    if intPart.isEmpty then none
    else
      match parseExpPart rest1 with
      | none => none
      | some e => some (mkDec neg (digitsToNat intPart) 0 e)

/-- An unsigned decimal literal: the `Infinity` keyword or a numeric
form. -/
def parseUnsignedDec (neg : Bool) (cs : List Char) : Option JsNum :=
  if cs = ['I', 'n', 'f', 'i', 'n', 'i', 't', 'y'] then some (.inf neg)
  else parseDecLit neg cs

/-- An optionally signed decimal literal. -/
def parseSignedDec (cs : List Char) : Option JsNum :=
  match cs with
  | '+' :: rest => parseUnsignedDec false rest
  | '-' :: rest => parseUnsignedDec true rest
  | _ => parseUnsignedDec false cs

/-- JS `Number()` on a string, per the ECMA-262 `StringNumericLiteral`
grammar: trim whitespace; empty is `0`; `0x`/`0X`, `0o`/`0O`, `0b`/`0B`
radix literals (unsigned); otherwise an optionally signed decimal
literal — `Infinity`, or digits with optional fraction and exponent
(`"0x0C"` is 12, `"1e1"` is 10, `"12.0"` is 12, `" 12 "` is 12,
`"1.5"` a non-integer, `"1a"`, `"."`, `"1e"`, `"12n"` are NaN =
`none`).  The value is exact, not rounded to a double (see `JsNum`). -/
def jsNumber (s : String) : Option JsNum :=
  match trimWs s.data with
  | [] => some (.int 0)
  | '0' :: x :: rest =>
    if x == 'x' || x == 'X' then parseRadix 16 hexDigitVal rest
    else if x == 'o' || x == 'O' then parseRadix 8 octDigitVal rest
    else if x == 'b' || x == 'B' then parseRadix 2 binDigitVal rest
    else parseSignedDec ('0' :: x :: rest)
  | cs => parseSignedDec cs

/-- A store query on the subscription table: by the numeric value parsed
from an id label, or by the pair `(uid, name)`. -/
inductive SubQuery
  | byId (id : JsNum)
  | byName (uid : String) (name : String)
  deriving DecidableEq, Repr

/-- `getSubscriptionQuery` (`index.ts` lines 122-129): a label starting
with `'#'` is parsed as a numeric id (`InvalidLabel` when the parse is
`NaN`); any other label queries `(uid, name)`. -/
def getSubscriptionQuery (label uid : String) : Except SubError SubQuery :=
  match hashRest label with
  | some rest =>
    match jsNumber (String.mk rest) with
    | none => .error .invalidLabel
    | some id => .ok (.byId id)
  | none => .ok (.byName uid label)

/-- Whether a subscription row matches a `SubQuery`: an id query matches
the rows whose id equals the parsed numeric value. -/
def matchesQuery : SubQuery → Subscription → Bool
  | .byId v, sub => v.eqInt (sub.id : Int)
  | .byName uid name, sub => sub.uid == uid && sub.name == name

/-- `getSubscription` (`index.ts` lines 131-136), faithfully including the
order of its two checks: line 133 reads `subscription.uid` BEFORE line
134 tests `!subscription`, so when the query matches no row the
destructured `subscription` is `undefined` and the property read throws a
`TypeError`; the `notFound` (`未找到订阅`) branch on line 134 is
unreachable (when a row is present, `!subscription` is false). -/
def getSubscription (db : List Subscription) (label uid : String) :
    Except SubError Subscription :=
  match getSubscriptionQuery label uid with
  | .error e => .error e
  | .ok q =>
    match (db.filter (matchesQuery q)).head? with
    | none => .error .jsTypeError
    | some sub => if sub.uid != uid then .error .notOwner else .ok sub

/-! ### Rule registry (`SubscribeService.rule`, `index.ts` lines 264-275) -/

/-- The deregistration handle returned by `rule`: either the inert handle
`{ dispose: () => {} }` of a duplicate registration, or a real handle
whose `dispose` closure searches the registry for `kind` at call time. -/
inductive Handle
  | inert
  | forKind (kind : String)

/-- `SubscribeService.rule` (`index.ts` lines 264-275): a duplicate `kind`
leaves the registry unchanged and yields the inert handle; otherwise the
new rule is pushed at the end and a handle for `kind` is returned. -/
def rule (rules : List SubscriptionRule) (kind : String)
    (filter : MSession → ConfigVal → Subscriber → Bool)
    (render : MSession → SubscribedMessage → String)
    (schema : ConfigVal → Option ConfigVal) :
    List SubscriptionRule × Handle :=
  if rules.any (withKind kind) then (rules, .inert)
  else (rules ++ [⟨kind, filter, render, schema⟩], .forKind kind)

/-- A handle's `dispose` (`index.ts` lines 266, 270-273): the inert handle
does nothing; a real handle removes the first rule whose kind matches
(`findIndex` + `splice`), and does nothing when no rule matches
(`index >= 0` guard). -/
def dispose (h : Handle) (rules : List SubscriptionRule) :
    List SubscriptionRule :=
  match h with
  | .inert => rules
  | .forKind kind => rules.eraseP (withKind kind)

/-- Registry states reachable from the empty registry by `rule` /
`dispose` calls. -/
inductive Reachable : List SubscriptionRule → Prop
  | init : Reachable []
  | reg {rs} (kind filter render schema) :
      Reachable rs → Reachable (rule rs kind filter render schema).1
  | disp {rs} (h) : Reachable rs → Reachable (dispose h rs)

/-- The registry invariant: at most one `SubscriptionRule` per kind. -/
def atMostOnePerKind (rules : List SubscriptionRule) : Prop :=
  ∀ k, (rules.filter (withKind k)).length ≤ 1

/-! ### Dispatch middleware (`index.ts` lines 90-120) -/

/-- The observable outcome of one run of the dispatch middleware: the two
tables afterwards, and whether the downstream continuation `next()` was
invoked. -/
structure MiddlewareResult where
  msgDb : List SubscribedMessage
  subDb : List Subscription
  calledNext : Bool

/-- The notification row built for a matching subscription
(`index.ts` lines 107-115), before the store assigns its id. -/
structure NotifCore where
  subscriber : String
  sender : String
  guild : String
  kind : String
  content : String
  timestamp : Nat
  hasRead : Bool
  deriving DecidableEq, Repr

/-- Auto-increment id assignment for a batch of created rows. -/
def assignIds (nextId : Nat) (cores : List NotifCore) :
    List SubscribedMessage :=
  cores.enum.map fun p =>
    ⟨nextId + p.1, p.2.subscriber, p.2.kind, p.2.sender, p.2.guild,
      p.2.content, p.2.timestamp, p.2.hasRead⟩

/-- The dispatch middleware (`index.ts` lines 90-120).  `memberListOf`
stands for `session.bot.getGuildMemberList` (it returns the member user
ids of a guild).  Early returns: when `config.doWrite` is false, or the
session has no (truthy) `guildId`, nothing is written and `next()` is not
called.  Otherwise every subscription of a guild member whose kind has a
registered rule and whose filter accepts the session produces one new
notification row, and `next()` is called. -/
def middleware (doWrite : Bool) (rules : List SubscriptionRule)
    (memberListOf : String → List String)
    (msgDb : List SubscribedMessage) (subDb : List Subscription)
    (nextId : Nat) (s : MSession) : MiddlewareResult :=
  if !doWrite then ⟨msgDb, subDb, false⟩
  else if !jsTruthy s.guildId then ⟨msgDb, subDb, false⟩
  else
    let memberUids :=
      (memberListOf (s.guildId.getD "")).map fun id => s.platform ++ ":" ++ id
    let subscriptions := subDb.filter fun sub => memberUids.contains sub.uid
    let cores := subscriptions.filterMap fun sub =>
      match rules.find? (withKind sub.kind) with
      | none => none
      | some r =>
        if r.filter s sub.config ⟨sub.uid⟩ then
          some ⟨sub.uid, s.uid, s.gid, sub.kind, s.content, s.timestamp, false⟩
        else none
    ⟨msgDb ++ assignIds nextId cores, subDb, true⟩

/-! ### `subscribe.add` (`index.ts` lines 154-179)

The action body after the `isKind` guard runs inside `try { ... } catch
(err) { return '订阅配置解析失败：...' }`: any exception thrown there —
a `SessionError` or a `TypeError` — is caught, the command returns the
failure message, and nothing is inserted.  YAML parsing is not modelled
(the raw config enters as a `ConfigVal`); the rule's schema is. -/

/-- Outcome of `subscribe.add`. -/
inductive AddOutcome
  | unknownKind
  | caught (e : SubError)
  | added (sub : Subscription)
  deriving DecidableEq, Repr

/-- The `if (name) { ... }` block of `subscribe.add` (`index.ts` lines
163-167), run inside the try block: skipped when `name` is falsy
(`undefined` or `""`); a name starting with `'#'` throws the
reserved-marker `SessionError`; otherwise `getSubscription(name, uid)` is
awaited — whatever it throws (for a vacant name, the `TypeError` of
`getSubscription`) propagates — and a returned row triggers the
duplicate-name `SessionError`. -/
def nameCheck (db : List Subscription) (uid : String) (name : Option String) :
    Option SubError :=
  match name with
  | none => none
  | some n =>
    if n = "" then none
    else
      match hashRest n with
      | some _ => some .reserved
      | none =>
        match getSubscription db n uid with
        | .error e => some e
        | .ok _ => some .duplicateName

/-- `subscribe.add` (`index.ts` lines 154-179): unknown kind returns the
`订阅规则不存在` message; a schema failure or any exception in the name
check is caught and nothing is inserted; otherwise a fresh row is created
(with the store-assigned id) and returned. -/
def addAction (rules : List SubscriptionRule) (db : List Subscription)
    (nextId : Nat) (uid kind : String) (rawConfig : ConfigVal)
    (name : Option String) : AddOutcome × List Subscription :=
  match rules.find? (withKind kind) with
  | none => (.unknownKind, db)
  | some r =>
    match r.schema rawConfig with
    | none => (.caught .schemaError, db)
    | some config =>
      match nameCheck db uid name with
      | some e => (.caught e, db)
      | none =>
        let sub : Subscription := ⟨nextId, name.getD "", uid, kind, config⟩
        (.added sub, db ++ [sub])

/-! ### `subscribe.modify` (`index.ts` lines 181-195) -/

/-- Outcome of `subscribe.modify`. -/
inductive ModifyOutcome
  | resolveError (e : SubError)
  | corrupt
  | err (e : SubError)
  | modified (id : Nat)
  deriving DecidableEq, Repr

/-- JS truthiness filter on an optional option value: `-n ""` behaves
like an absent option (`if (newName)`). -/
def jsOptStr : Option String → Option String
  | some "" => none
  | x => x

/-- `subscribe.modify` (`index.ts` lines 181-195): resolves the label via
`getSubscription`; when the stored kind has no registered rule it returns
the `已损坏` (corrupt) message at line 186 BEFORE reading the options, so
neither a rename nor a reconfiguration is applied; otherwise the update
collects the truthy options (`NoChange` when both are absent; a schema
failure on the new config raises), and `database.set` applies it to the
resolved row.  The new config enters post-YAML as a `ConfigVal`. -/
def modifyAction (rules : List SubscriptionRule) (db : List Subscription)
    (uid label : String) (newName : Option String)
    (newConfigRaw : Option ConfigVal) : ModifyOutcome × List Subscription :=
  match getSubscription db label uid with
  | .error e => (.resolveError e, db)
  | .ok sub =>
    match rules.find? (withKind sub.kind) with
    | none => (.corrupt, db)
    | some r =>
      let nameUpd := jsOptStr newName
      match newConfigRaw with
      | some raw =>
        match r.schema raw with
        | none => (.err .schemaError, db)
        | some cfg =>
          (.modified sub.id, db.map fun t =>
            if t.id = sub.id then
              { t with name := (nameUpd.getD t.name), config := cfg }
            else t)
      | none =>
        match nameUpd with
        | some n =>
          (.modified sub.id, db.map fun t =>
            if t.id = sub.id then { t with name := n } else t)
        | none => (.err .noChange, db)

/-! ### `subscribe.check` (`index.ts` lines 220-255) -/

/-- The option flags of `subscribe.check`. -/
structure CheckOptions where
  clear : Bool
  read : Bool
  globalFlag : Bool
  deriving DecidableEq, Repr

/-- The message query of `subscribe.check` (`index.ts` lines 227-232):
`subscriber = uid`; `kind` restricted when the argument is truthy;
`guild` restricted to the current `gid` when called with a truthy
`guildId` and without `-G`; `hasRead` restricted to unread unless `-c` or
`-r` is given. -/
def checkMatches (uid : String) (kindArg : Option String)
    (guildId : Option String) (gid : String) (opts : CheckOptions)
    (m : SubscribedMessage) : Bool :=
  m.subscriber == uid
  && (if jsTruthy kindArg then m.kind == kindArg.getD "" else true)
  && (if jsTruthy guildId && !opts.globalFlag then m.guild == gid else true)
  && (if opts.clear || opts.read then true else m.hasRead == false)

/-- Which bulk action a `subscribe.check` invocation applied. -/
inductive CheckAction
  | noMessages
  | cleared (removed : Nat)
  | marked
  deriving DecidableEq, Repr

/-- One rendered line (`index.ts` lines 248-251), faithfully without a
fallback: `this.rules.find(withKind(msg.kind))` may be `undefined`, and
`rule.render(session, msg)` then throws a `TypeError` — there is no
raw-content path for an unregistered kind. -/
def renderLine (rules : List SubscriptionRule) (s : MSession)
    (kindArg : Option String) (idx : Nat) (msg : SubscribedMessage) :
    Except SubError String :=
  match rules.find? (withKind msg.kind) with
  | none => .error .jsTypeError
  | some r =>
    .ok (toString (idx + 1) ++ (if msg.hasRead then "." else "*") ++ " "
      ++ (if jsTruthy kindArg then "" else "[" ++ msg.kind ++ "] ")
      ++ r.render s msg)

/-- Render the whole queried list; the `Promise.all` rejects as soon as
any line throws. -/
def renderMessages (rules : List SubscriptionRule) (s : MSession)
    (kindArg : Option String) (messages : List SubscribedMessage) :
    Except SubError (List String) :=
  messages.enum.mapM fun p => renderLine rules s kindArg p.1 p.2

/-- Result of one `subscribe.check` invocation. -/
structure CheckResult where
  action : CheckAction
  db : List SubscribedMessage
  rendered : Except SubError (List String)

/-- `subscribe.check` (`index.ts` lines 220-255): query the matching
messages; when none match, return early (neither bulk action, nothing
rendered); with `-c`, remove every row whose id is among the queried ids
and report the removed count; otherwise set `hasRead := true` on those
ids; finally render the queried snapshot. -/
def subscribeCheck (rules : List SubscriptionRule)
    (db : List SubscribedMessage) (s : MSession) (opts : CheckOptions)
    (kindArg : Option String) : CheckResult :=
  let messages := db.filter (checkMatches s.uid kindArg s.guildId s.gid opts)
  if messages.isEmpty then ⟨.noMessages, db, .ok []⟩
  else
    let ids := messages.map (·.id)
    if opts.clear then
      ⟨.cleared (db.filter (fun m => ids.contains m.id)).length,
        db.filter (fun m => !ids.contains m.id),
        renderMessages rules s kindArg messages⟩
    else
      ⟨.marked,
        db.map (fun m => if ids.contains m.id then { m with hasRead := true } else m),
        renderMessages rules s kindArg messages⟩

/-! ### Concrete sample values -/

/-- A concrete rule for the built-in kind `"zero"`: its filter accepts
everything, its renderer returns the raw content, its schema accepts any
config. -/
def zeroRule : SubscriptionRule :=
  ⟨"zero", fun _ _ _ => true, fun _ m => m.content, fun c => some c⟩

/-- A stored notification of kind `"zero"` for subscriber `"pA"`. -/
def zeroMsg : SubscribedMessage := ⟨1, "pA", "zero", "pB", "g", "hi", 0, false⟩

/-- A session of user `"pA"` in private context (no guild). -/
def sessA : MSession := ⟨"pA", "p", none, "g", "x", 5⟩

/-- A subscription whose kind `"zero"` may be orphaned (no registered
rule). -/
def orphanSub : Subscription := ⟨1, "a", "u", "zero", .null⟩

/-- The registry obtained by registering `"zero"` on the empty registry. -/
def reg1 : List SubscriptionRule :=
  (rule [] "zero" zeroRule.filter zeroRule.render zeroRule.schema).1

/-! ### Helper lemmas about the registry -/

theorem filter_withKind_eq_nil {rules : List SubscriptionRule} {kind : String}
    (h : rules.any (withKind kind) = false) :
    rules.filter (withKind kind) = [] := by
  rw [List.filter_eq_nil_iff]
  intro a ha hk
  exact absurd (List.any_eq_true.2 ⟨a, ha, hk⟩) (by simp [h])

theorem rule_preserves_atMostOne {rs : List SubscriptionRule}
    (kind : String) (filter : MSession → ConfigVal → Subscriber → Bool)
    (render : MSession → SubscribedMessage → String)
    (schema : ConfigVal → Option ConfigVal)
    (hinv : atMostOnePerKind rs) :
    atMostOnePerKind (rule rs kind filter render schema).1 := by
  unfold rule
  by_cases hdup : rs.any (withKind kind) = true
  · simpa [hdup] using hinv
  · have hfalse : rs.any (withKind kind) = false := by
      simpa using hdup
    intro k
    simp only [hfalse, Bool.false_eq_true, if_false, List.filter_append,
      List.length_append]
    by_cases hk : kind = k
    · subst hk
      rw [filter_withKind_eq_nil hfalse]
      simp [withKind]
    · have hno : withKind k ⟨kind, filter, render, schema⟩ = false := by
        simp [withKind]
        exact hk
      simp only [List.filter_cons, hno, Bool.false_eq_true, if_false,
        List.filter_nil, List.length_nil, Nat.add_zero]
      exact hinv k

theorem dispose_preserves_atMostOne {rs : List SubscriptionRule}
    (h : Handle) (hinv : atMostOnePerKind rs) :
    atMostOnePerKind (dispose h rs) := by
  cases h with
  | inert => exact hinv
  | forKind kind =>
    intro k
    exact le_trans (((List.eraseP_sublist rs).filter _).length_le) (hinv k)

theorem reachable_atMostOne {rs : List SubscriptionRule}
    (h : Reachable rs) : atMostOnePerKind rs := by
  induction h with
  | init => intro k; simp
  | reg kind filter render schema _ ih =>
    exact rule_preserves_atMostOne kind filter render schema ih
  | disp hdl _ ih => exact dispose_preserves_atMostOne hdl ih

theorem filter_eraseP_eq_nil {α : Type} {p : α → Bool} {l : List α}
    (h : (l.filter p).length ≤ 1) : (l.eraseP p).filter p = [] := by
  induction l with
  | nil => rfl
  | cons a t ih =>
    by_cases hp : p a
    · rw [List.eraseP_cons_of_pos hp]
      have hlen : (t.filter p).length = 0 := by
        have h' := h
        simp only [List.filter_cons, hp, if_true, List.length_cons] at h'
        omega
      simpa [List.length_eq_zero] using hlen
    · rw [List.eraseP_cons_of_neg hp]
      have h' : (t.filter p).length ≤ 1 := by
        simpa [List.filter_cons, hp] using h
      simp only [List.filter_cons, hp, Bool.false_eq_true, if_false]
      exact ih h'

theorem length_filter_pair {α : Type} (p : α → Bool) (l : List α) :
    (l.filter p).length + (l.filter (fun a => !p a)).length = l.length := by
  induction l with
  | nil => rfl
  | cons a t ih =>
    by_cases h : p a <;> simp [List.filter_cons, h] <;> omega

/-! ### Claim theorems -/

/-- Claim C1 (code bug).  The claim says `getSubscription` fails with
`SubscriptionNotFound` when no row matches.  In the code the ownership
check at line 133 reads `subscription.uid` BEFORE the existence check at
line 134, so on an empty query result the command dies with a JS
`TypeError` instead, and the `notFound` branch is unreachable.  At the
failing input (label `"#3"`, empty table) the result is the `TypeError`
(first conjunct), not `SubscriptionNotFound`; the same for a name-based
lookup of a vacant name (second conjunct); the `NotOwner` half of the
claim does hold (third conjunct: a row with id 3 owned by `"v"`, caller
`"u"`). -/
theorem getSubscription_missing_row_type_error :
    getSubscription [] "#3" "u" = .error .jsTypeError ∧
    getSubscription [⟨3, "a", "v", "zero", .null⟩] "nosuch" "u"
      = .error .jsTypeError ∧
    getSubscription [⟨3, "a", "v", "zero", .null⟩] "#3" "u"
      = .error .notOwner :=
  ⟨rfl, rfl, rfl⟩

/-- Claim C2 (code bug).  The claim says that rendering a queried
notification whose kind has no registered rule falls back to the raw
content and never fails.  In the code (`index.ts` lines 249-250)
`this.rules.find(withKind(msg.kind))` is dereferenced without a guard, so
an unregistered kind makes `rule.render` throw a `TypeError` and the
whole command fails.  Here: a stored `"zero"` notification is queried
after `"zero"` was deregistered (empty registry); the query itself
succeeds (the mark-read branch runs) but rendering errors. -/
theorem check_render_fails_on_deregistered_kind :
    (subscribeCheck [] [zeroMsg] sessA ⟨false, false, false⟩ none).action
      = .marked ∧
    (subscribeCheck [] [zeroMsg] sessA ⟨false, false, false⟩ none).rendered
      = .error .jsTypeError ∧
    (subscribeCheck [zeroRule] [zeroMsg] sessA ⟨false, false, false⟩
      none).rendered = .ok ["1* [zero] hi"] :=
  ⟨rfl, rfl, rfl⟩

/-- Claim C3 (code bug).  The claim says `add` succeeds and inserts a row
when the supplied name is held by no subscription of that uid (also when
only other uids hold it).  In the code the duplicate check calls
`getSubscription(name, uid)` (`index.ts` line 165), which throws a
`TypeError` when the `(uid, name)` query matches no row (see C1); the
surrounding `try/catch` turns this into the `订阅配置解析失败` failure
reply and nothing is inserted.  First conjunct: fresh name `"a"` on an
empty table; second: name `"a"` held only by the other uid `"u2"`; both
fail and leave the table unchanged. -/
theorem add_fresh_name_fails :
    addAction [zeroRule] [] 1 "u1" "zero" .null (some "a")
      = (.caught .jsTypeError, []) ∧
    addAction [zeroRule] [⟨5, "a", "u2", "zero", .null⟩] 6 "u1" "zero" .null
      (some "a")
      = (.caught .jsTypeError, [⟨5, "a", "u2", "zero", .null⟩]) :=
  ⟨rfl, rfl⟩

/-- Claim C4, counterexample.  The claim says `modify` on a subscription
whose stored kind is unregistered "can still apply a supplied rename".
Concretely: `orphanSub` (kind `"zero"`, empty registry), a rename to
`"b"` supplied — the code returns the corrupt reply and the table keeps
the old name `"a"`: no rename is applied. -/
theorem modify_orphan_rename_counterexample :
    modifyAction [] [orphanSub] "u" "a" (some "b") none
      = (.corrupt, [orphanSub]) := rfl

/-- Claim C4, amended: when `modify` resolves a subscription whose stored
kind is no longer registered, the operation fails with
`CorruptSubscription` regardless of the supplied fields — it returns at
`index.ts` line 186 before reading the options, so neither a rename nor a
reconfiguration is applied and the table is unchanged. -/
theorem modify_orphan_always_corrupt (rules : List SubscriptionRule)
    (db : List Subscription) (uid label : String) (newName : Option String)
    (newConfigRaw : Option ConfigVal) (sub : Subscription)
    (hres : getSubscription db label uid = .ok sub)
    (horph : rules.find? (withKind sub.kind) = none) :
    modifyAction rules db uid label newName newConfigRaw = (.corrupt, db) := by
  simp only [modifyAction, hres, horph]

/-- Witness for C4's amended theorem: the orphaned subscription resolved
by name with a rename supplied. -/
theorem modify_orphan_always_corrupt_witness :
    modifyAction [] [orphanSub] "u" "a" (some "b") (some (.str "cfg"))
      = (.corrupt, [orphanSub]) :=
  modify_orphan_always_corrupt [] [orphanSub] "u" "a" (some "b")
    (some (.str "cfg")) orphanSub rfl rfl

/-- Claim C10.  When the service config's `doWrite` is false
(`index.ts` line 91) or the session has no `guildId` (line 94), the
middleware returns early: both tables are unchanged and the downstream
continuation `next()` is not invoked. -/
theorem middleware_early_return (doWrite : Bool)
    (rules : List SubscriptionRule) (memberListOf : String → List String)
    (msgDb : List SubscribedMessage) (subDb : List Subscription)
    (nextId : Nat) (s : MSession)
    (h : doWrite = false ∨ s.guildId = none) :
    middleware doWrite rules memberListOf msgDb subDb nextId s
      = ⟨msgDb, subDb, false⟩ := by
  unfold middleware
  rcases h with h | h
  · simp [h]
  · cases doWrite <;> simp [h, jsTruthy]

/-- Witness for C10: a guildless session with `doWrite` enabled. -/
theorem middleware_early_return_witness :
    middleware true [] (fun _ => []) [zeroMsg] [orphanSub] 0 sessA
      = ⟨[zeroMsg], [orphanSub], false⟩ :=
  middleware_early_return true [] (fun _ => []) [zeroMsg] [orphanSub] 0 sessA
    (Or.inr rfl)

/-- Claim C5.  Guild `G` has members `{A, B}`; `A` holds exactly one
subscription of kind `"zero"` whose filter always returns true; `B`
sends content `c` in `G` at time `T`.  One dispatch appends exactly one
notification row `{subscriber: A, sender: B, guild: gid, kind: "zero",
content: c, timestamp: T, hasRead: false}` (uids platform-qualified, the
guild field holding the session's guild-scoped id `gid`), so no row is
created for `B` or for any non-member, and the subscription table is
untouched. -/
theorem dispatch_scenario_single_notification
    (plat A B G gid c nm : String) (T sid nid : Nat) (cfg : ConfigVal)
    (render0 : MSession → SubscribedMessage → String)
    (schema0 : ConfigVal → Option ConfigVal)
    (memberListOf : String → List String)
    (msgDb : List SubscribedMessage)
    (hG : G ≠ "") (hmem : memberListOf G = [A, B]) :
    middleware true [⟨"zero", fun _ _ _ => true, render0, schema0⟩]
      memberListOf msgDb [⟨sid, nm, plat ++ ":" ++ A, "zero", cfg⟩] nid
      ⟨plat ++ ":" ++ B, plat, some G, gid, c, T⟩
      = ⟨msgDb ++ [⟨nid, plat ++ ":" ++ A, "zero", plat ++ ":" ++ B, gid, c,
            T, false⟩],
          [⟨sid, nm, plat ++ ":" ++ A, "zero", cfg⟩], true⟩ := by
  simp [middleware, jsTruthy, hG, hmem, assignIds, withKind, List.filter_cons,
    List.filterMap_cons, List.find?, List.enum]

/-- Witness for C5 at concrete values. -/
theorem dispatch_scenario_single_notification_witness :
    middleware true [⟨"zero", fun _ _ _ => true, zeroRule.render,
        zeroRule.schema⟩]
      (fun _ => ["A", "B"]) [] [⟨7, "n", "p:A", "zero", .null⟩] 10
      ⟨"p:B", "p", some "G", "p:G", "hi", 42⟩
      = ⟨[⟨10, "p:A", "zero", "p:B", "p:G", "hi", 42, false⟩],
          [⟨7, "n", "p:A", "zero", .null⟩], true⟩ :=
  dispatch_scenario_single_notification "p" "A" "B" "G" "p:G" "hi" "n" 42 7 10
    .null zeroRule.render zeroRule.schema (fun _ => ["A", "B"]) []
    (by decide) rfl

/-- Claim C6.  The registry invariant: every state reachable from the
empty registry by `rule` / `dispose` calls holds at most one
`SubscriptionRule` per kind; registering an already-registered kind
leaves the registry unchanged and returns the inert handle; the inert
handle's `dispose` is a no-op. -/
theorem registry_at_most_one_per_kind :
    (∀ rs, Reachable rs → atMostOnePerKind rs) ∧
    (∀ rs kind filter render schema, isKind rs kind = true →
      rule rs kind filter render schema = (rs, Handle.inert)) ∧
    (∀ rs, dispose Handle.inert rs = rs) := by
  refine ⟨fun rs h => reachable_atMostOne h,
    fun rs kind filter render schema h => ?_, fun rs => rfl⟩
  unfold rule
  rw [if_pos]
  exact h

/-- Witness for C6: register `"zero"`, dispose it, re-register — the
invariant holds at the resulting state; a duplicate registration of
`"zero"` on `reg1` is inert; the inert dispose is the identity there. -/
theorem registry_at_most_one_per_kind_witness :
    atMostOnePerKind (dispose (Handle.forKind "zero") reg1) ∧
    rule reg1 "zero" zeroRule.filter zeroRule.render zeroRule.schema
      = (reg1, Handle.inert) ∧
    dispose Handle.inert reg1 = reg1 :=
  ⟨registry_at_most_one_per_kind.1 _
      (Reachable.disp _ (Reachable.reg "zero" zeroRule.filter zeroRule.render
        zeroRule.schema Reachable.init)),
    registry_at_most_one_per_kind.2.1 reg1 "zero" zeroRule.filter
      zeroRule.render zeroRule.schema rfl,
    registry_at_most_one_per_kind.2.2 reg1⟩

/-- Claim C7.  Deregistration is idempotent: at every reachable registry
state, running a handle's `dispose` a second time has no effect beyond
the first removal (the `findIndex`-based closure finds nothing the second
time), and the inert handle returned by a duplicate registration never
changes the registry. -/
theorem dispose_idempotent (rs : List SubscriptionRule) (h : Handle)
    (hreach : Reachable rs) :
    dispose h (dispose h rs) = dispose h rs ∧
    dispose Handle.inert rs = rs := by
  refine ⟨?_, rfl⟩
  cases h with
  | inert => rfl
  | forKind kind =>
    show (rs.eraseP (withKind kind)).eraseP (withKind kind)
      = rs.eraseP (withKind kind)
    have hnil : (rs.eraseP (withKind kind)).filter (withKind kind) = [] :=
      filter_eraseP_eq_nil (reachable_atMostOne hreach kind)
    apply List.eraseP_of_forall_not
    intro a ha
    have := List.filter_eq_nil_iff.1 hnil a ha
    simpa using this

/-- Witness for C7: disposing the `"zero"` handle twice on the
one-rule registry. -/
theorem dispose_idempotent_witness :
    dispose (Handle.forKind "zero")
        (dispose (Handle.forKind "zero") reg1)
      = dispose (Handle.forKind "zero") reg1 ∧
    dispose Handle.inert reg1 = reg1 :=
  dispose_idempotent reg1 (Handle.forKind "zero")
    (Reachable.reg "zero" zeroRule.filter zeroRule.render zeroRule.schema
      Reachable.init)

/-! ### Helper lemmas about `subscribeCheck` -/

theorem subscribeCheck_empty {rules : List SubscriptionRule}
    {db : List SubscribedMessage} {s : MSession} {opts : CheckOptions}
    {kindArg : Option String}
    (hempty : db.filter (checkMatches s.uid kindArg s.guildId s.gid opts)
      = []) :
    subscribeCheck rules db s opts kindArg = ⟨.noMessages, db, .ok []⟩ := by
  simp [subscribeCheck, hempty]

theorem subscribeCheck_clear {rules : List SubscriptionRule}
    {db : List SubscribedMessage} {s : MSession} {opts : CheckOptions}
    {kindArg : Option String}
    (hne : db.filter (checkMatches s.uid kindArg s.guildId s.gid opts) ≠ [])
    (hclear : opts.clear = true) :
    subscribeCheck rules db s opts kindArg =
      ⟨.cleared (db.filter (fun m =>
          ((db.filter (checkMatches s.uid kindArg s.guildId s.gid opts)).map
            (·.id)).contains m.id)).length,
        db.filter (fun m =>
          !((db.filter (checkMatches s.uid kindArg s.guildId s.gid opts)).map
            (·.id)).contains m.id),
        renderMessages rules s kindArg
          (db.filter (checkMatches s.uid kindArg s.guildId s.gid opts))⟩ := by
  have h1 : (db.filter
      (checkMatches s.uid kindArg s.guildId s.gid opts)).isEmpty = false := by
    simpa [List.isEmpty_iff] using hne
  simp [subscribeCheck, h1, hclear]

theorem subscribeCheck_mark {rules : List SubscriptionRule}
    {db : List SubscribedMessage} {s : MSession} {opts : CheckOptions}
    {kindArg : Option String}
    (hne : db.filter (checkMatches s.uid kindArg s.guildId s.gid opts) ≠ [])
    (hclear : opts.clear = false) :
    subscribeCheck rules db s opts kindArg =
      ⟨.marked,
        db.map (fun m =>
          if ((db.filter (checkMatches s.uid kindArg s.guildId s.gid
              opts)).map (·.id)).contains m.id
          then { m with hasRead := true } else m),
        renderMessages rules s kindArg
          (db.filter (checkMatches s.uid kindArg s.guildId s.gid opts))⟩ := by
  have h1 : (db.filter
      (checkMatches s.uid kindArg s.guildId s.gid opts)).isEmpty = false := by
    simpa [List.isEmpty_iff] using hne
  simp [subscribeCheck, h1, hclear]

/-- Claim C8.  Per `subscribe.check` invocation over the queried ids,
exactly one of the two bulk actions — or neither, when the listing is
empty — is applied: with `-c`, every queried id is deleted and the
reported count is the number of rows removed (clear takes precedence, the
`-r` flag notwithstanding, since the branch at `index.ts` line 237 tests
only `options.clear`); without `-c`, every queried id gets
`hasRead := true` and no row is deleted (the table's length is
preserved); rows outside the queried id set are untouched in both
branches. -/
theorem check_exactly_one_action (rules : List SubscriptionRule)
    (db : List SubscribedMessage) (s : MSession) (opts : CheckOptions)
    (kindArg : Option String) :
    (db.filter (checkMatches s.uid kindArg s.guildId s.gid opts) = [] →
      subscribeCheck rules db s opts kindArg = ⟨.noMessages, db, .ok []⟩) ∧
    (db.filter (checkMatches s.uid kindArg s.guildId s.gid opts) ≠ [] →
      opts.clear = true →
      (subscribeCheck rules db s opts kindArg).action
        = .cleared (db.length
            - (subscribeCheck rules db s opts kindArg).db.length) ∧
      (∀ m ∈ (subscribeCheck rules db s opts kindArg).db,
        ((db.filter (checkMatches s.uid kindArg s.guildId s.gid opts)).map
          (·.id)).contains m.id = false) ∧
      (∀ m ∈ db,
        ((db.filter (checkMatches s.uid kindArg s.guildId s.gid opts)).map
          (·.id)).contains m.id = false →
        m ∈ (subscribeCheck rules db s opts kindArg).db)) ∧
    (db.filter (checkMatches s.uid kindArg s.guildId s.gid opts) ≠ [] →
      opts.clear = false →
      (subscribeCheck rules db s opts kindArg).action = .marked ∧
      (subscribeCheck rules db s opts kindArg).db.length = db.length ∧
      (∀ m ∈ db,
        (((db.filter (checkMatches s.uid kindArg s.guildId s.gid opts)).map
            (·.id)).contains m.id = true →
          { m with hasRead := true }
            ∈ (subscribeCheck rules db s opts kindArg).db) ∧
        (((db.filter (checkMatches s.uid kindArg s.guildId s.gid opts)).map
            (·.id)).contains m.id = false →
          m ∈ (subscribeCheck rules db s opts kindArg).db))) := by
  refine ⟨fun hempty => subscribeCheck_empty hempty,
    fun hne hclear => ?_, fun hne hclear => ?_⟩
  · rw [subscribeCheck_clear hne hclear]
    set q := checkMatches s.uid kindArg s.guildId s.gid opts with hq
    set ids := (db.filter q).map (·.id) with hids
    refine ⟨?_, ?_, ?_⟩
    · have hpair := length_filter_pair (fun m => ids.contains m.id) db
      simp only [CheckAction.cleared.injEq]
      omega
    · intro m hm
      have := (List.mem_filter.1 hm).2
      simpa using this
    · intro m hm hno
      exact List.mem_filter.2 ⟨hm, by simpa using hno⟩
  · rw [subscribeCheck_mark hne hclear]
    set q := checkMatches s.uid kindArg s.guildId s.gid opts with hq
    set ids := (db.filter q).map (·.id) with hids
    refine ⟨rfl, by simp, ?_⟩
    intro m hm
    constructor
    · intro hin
      have : ({ m with hasRead := true } : SubscribedMessage)
          = if ids.contains m.id then { m with hasRead := true } else m := by
        rw [if_pos hin]
      rw [this]
      exact List.mem_map_of_mem _ hm
    · intro hno
      have : m = if ids.contains m.id then { m with hasRead := true } else m := by
        rw [hno]
        rfl
      rw [this]
      exact List.mem_map_of_mem _ hm

/-- Witness for C8: one unread `"zero"` message, invoked with both `-c`
and `-r` — the clear branch wins and deletes the row. -/
theorem check_exactly_one_action_witness :
    (subscribeCheck [zeroRule] [zeroMsg] sessA ⟨true, true, false⟩ none).action
      = .cleared (([zeroMsg] : List SubscribedMessage).length
          - (subscribeCheck [zeroRule] [zeroMsg] sessA ⟨true, true, false⟩
              none).db.length) :=
  ((check_exactly_one_action [zeroRule] [zeroMsg] sessA ⟨true, true, false⟩
    none).2.1 (by decide) rfl).1

/-- Claim C9.  Label resolution: `getSubscription` fails with
`InvalidLabel` exactly when the label starts with the reserved marker
`'#'` and the JS `Number()` parse of the remainder is `NaN` (per the
`StringNumericLiteral` grammar embedded in `jsNumber`); when the parse
yields an integer value `n` (bounded by `2 ^ 53`, the range on which
`Number()` is exact — see `JsNum`) the row is looked up directly by that
id (the query constrains only `id`, so the subsequent ownership test may
still reject); a label not starting with `'#'` is looked up as the pair
`(uid, name)` (where the ownership test is vacuous, every matching row
having the caller's uid). -/
theorem resolveLabel_parse_and_lookup (db : List Subscription)
    (label uid : String) :
    (getSubscription db label uid = .error .invalidLabel ↔
      ∃ rest, hashRest label = some rest ∧ jsNumber (String.mk rest) = none) ∧
    (∀ rest n, hashRest label = some rest →
      jsNumber (String.mk rest) = some (.int n) → n.natAbs ≤ 2 ^ 53 →
      getSubscription db label uid
        = match (db.filter fun sub => n == (sub.id : Int)).head? with
          | none => .error .jsTypeError
          | some sub =>
            if sub.uid != uid then .error .notOwner else .ok sub) ∧
    (hashRest label = none →
      getSubscription db label uid
        = match (db.filter fun sub =>
              sub.uid == uid && sub.name == label).head? with
          | none => .error .jsTypeError
          | some sub => .ok sub) := by
  have hByName : matchesQuery (.byName uid label)
      = fun sub : Subscription => sub.uid == uid && sub.name == label := by
    funext sub
    rfl
  rcases hre : hashRest label with _ | rest
  · -- name-based lookup
    have hgs : getSubscription db label uid
        = match (db.filter fun sub =>
              sub.uid == uid && sub.name == label).head? with
          | none => .error .jsTypeError
          | some sub => if sub.uid != uid then .error .notOwner
            else .ok sub := by
      simp only [getSubscription, getSubscriptionQuery, hre, hByName]
    refine ⟨?_, fun rest n hsome => Option.noConfusion hsome, fun _ => ?_⟩
    · rw [hgs]
      constructor
      · intro h
        rcases hf : (db.filter fun sub =>
            sub.uid == uid && sub.name == label).head? with _ | sub <;>
          rw [hf] at h
        · exact absurd (Except.error.inj h) (by decide)
        · by_cases ho : sub.uid != uid <;> simp [ho] at h
      · rintro ⟨rest, hsome, _⟩
        exact Option.noConfusion hsome
    · rw [hgs]
      rcases hf : db.filter
          (fun sub => sub.uid == uid && sub.name == label) with _ | ⟨sub, t⟩
      · rw [hf]
        rfl
      · have hmem : sub ∈ db.filter
            (fun sub => sub.uid == uid && sub.name == label) := by
          rw [hf]
          exact List.mem_cons_self sub t
        have hpred := (List.mem_filter.1 hmem).2
        have hok : (sub.uid == uid) = true := by
          simp only [Bool.and_eq_true] at hpred
          exact hpred.1
        have hno : (sub.uid != uid) = false := by
          simp [bne, hok]
        rw [hf]
        simp [hno]
  · -- id-based lookup
    rcases hn : jsNumber (String.mk rest) with _ | v
    · have hgs : getSubscription db label uid = .error .invalidLabel := by
        simp only [getSubscription, getSubscriptionQuery, hre, hn]
      refine ⟨⟨fun _ => ⟨rest, rfl, hn⟩, fun _ => hgs⟩,
        fun rest' n hsome hpar hb => ?_,
        fun hnone => Option.noConfusion hnone⟩
      cases Option.some.inj hsome
      rw [hn] at hpar
      exact Option.noConfusion hpar
    · have hgs : getSubscription db label uid
          = match (db.filter (matchesQuery (.byId v))).head? with
            | none => .error .jsTypeError
            | some sub => if sub.uid != uid then .error .notOwner
              else .ok sub := by
        simp only [getSubscription, getSubscriptionQuery, hre, hn]
      refine ⟨?_, fun rest' n hsome hpar hb => ?_,
        fun hnone => Option.noConfusion hnone⟩
      · rw [hgs]
        constructor
        · intro h
          rcases hf : (db.filter (matchesQuery (.byId v))).head? with _ | sub <;>
            rw [hf] at h
          · exact absurd (Except.error.inj h) (by decide)
          · by_cases ho : sub.uid != uid <;> simp [ho] at h
        · rintro ⟨rest', hsome, hpar⟩
          cases Option.some.inj hsome
          rw [hn] at hpar
          exact Option.noConfusion hpar
      · cases Option.some.inj hsome
        rw [hn] at hpar
        cases Option.some.inj hpar
        have hById : matchesQuery (.byId (.int n))
            = fun sub : Subscription => n == (sub.id : Int) := by
          funext sub
          rfl
        rw [hgs, hById]

/-- Witness for C9: the id-lookup conjunct at the hexadecimal label
`"#0x0C"` and the fractional-form label `"#12.0"` (both parse to 12, the
stored row is found and ownership rejects caller `"u"`), and the
`InvalidLabel` conjunct at the malformed label `"#1a"`. -/
theorem resolveLabel_parse_and_lookup_witness :
    getSubscription [⟨12, "n", "v", "zero", .null⟩] "#0x0C" "u"
      = .error .notOwner ∧
    getSubscription [⟨12, "n", "v", "zero", .null⟩] "#12.0" "u"
      = .error .notOwner ∧
    getSubscription [⟨12, "n", "v", "zero", .null⟩] "#1a" "u"
      = .error .invalidLabel :=
  ⟨Eq.trans
    ((resolveLabel_parse_and_lookup [⟨12, "n", "v", "zero", .null⟩] "#0x0C"
      "u").2.1 ['0', 'x', '0', 'C'] 12 rfl rfl (by decide)) rfl,
   Eq.trans
    ((resolveLabel_parse_and_lookup [⟨12, "n", "v", "zero", .null⟩] "#12.0"
      "u").2.1 ['1', '2', '.', '0'] 12 rfl rfl (by decide)) rfl,
   (resolveLabel_parse_and_lookup [⟨12, "n", "v", "zero", .null⟩] "#1a"
      "u").1.2 ⟨['1', 'a'], rfl, rfl⟩⟩

end WSubscribe
